import Mathlib

/-!
Verification development for the hidden-web-caches-discovery tool.

The Python sources are shallowly embedded in Lean:
* floating point timing values become exact rationals (`ℚ`). This is an
  idealization: branch-structure properties conditioned on the computed
  quantities (which branch runs, what is returned in it) are insensitive
  to it, but properties that hinge on IEEE-754 rounding — e.g. whether
  the computed σ of a constant list is exactly 0 — are outside this
  model and are not claimed of the program (see the note at
  `predict_constant_bucket`);
* Python dicts of headers/cookies become insertion-ordered association
  lists `List (String × String)` with Python's update semantics;
* the process-wide random source (`random.choice`) becomes an explicit
  stream `ℕ → Fin 52` of draws, threaded by a counter;
* the single external statistical routine, `scipy.stats.ttest_ind(...,
  equal_var=False)` (Welch's unequal-variance t-test), is modelled as an
  oracle parameter `ttest_pvalue : List ℚ → List ℚ → ℚ` returning the
  p-value: the theorems quantify over it, which also lets us express that
  a branch never invokes it;
* unbounded `while` loops driven by randomness are given explicit fuel;
  theorems are stated for the executions in which the Python loop
  terminates (it terminates with probability 1).
-/

namespace HWCD

/-! ### Character/string helpers (models of the Python `str` operations used) -/

/-- Model of Python `str.lower()` for the ASCII header names used here. -/
def str_lower (s : String) : String := String.mk (s.data.map Char.toLower)

/-- Model of Python `str.strip()`: drop leading and trailing whitespace. -/
def trim_chars (cs : List Char) : List Char :=
  ((cs.dropWhile Char.isWhitespace).reverse.dropWhile Char.isWhitespace).reverse

/-- Model of Python `str.strip()` on strings. -/
def py_strip (s : String) : String := String.mk (trim_chars s.data)

/-- Model of Python `str.split(',')` on the character list.
`split_on_comma [] = [[]]`, matching `''.split(',') == ['']`. -/
def split_on_comma : List Char → List (List Char)
  | [] => [[]]
  | c :: rest =>
    match split_on_comma rest with
    | [] => [[c]]
    | h :: t => if c = ',' then [] :: h :: t else (c :: h) :: t

/-- Model of Python `str.split(',')` on strings. -/
def py_split_comma (s : String) : List String := (split_on_comma s.data).map String.mk

/-- Model of the Python substring test `needle in hay` on character lists. -/
def chars_in (needle hay : List Char) : Bool :=
  hay.tails.any (fun t => needle.isPrefixOf t)

/-- Model of the Python substring test `needle in hay` on strings. -/
def str_in (needle hay : String) : Bool := chars_in needle.data hay.data

/-! ### Python dict model

Header and cookie maps are insertion-ordered association lists.
`dict_set` is `d[k] = v`: it overwrites in place when the key exists and
appends otherwise, exactly like a Python `dict`. -/

/-- Model of the Python membership test `k in d`. -/
def dict_mem (m : List (String × String)) (k : String) : Bool :=
  m.any (fun kv => kv.1 == k)

/-- Model of the Python assignment `d[k] = v`. -/
def dict_set (m : List (String × String)) (k v : String) : List (String × String) :=
  if dict_mem m k then m.map (fun kv => if kv.1 == k then (k, v) else kv)
  else m ++ [(k, v)]

/-- Model of the Python access `d[k]` (`none` for a missing key; keys of
a Python dict are unique, so taking the first match is exact). -/
def dict_get (k : String) : List (String × String) → Option String
  | [] => none
  | kv :: rest => if kv.1 == k then some kv.2 else dict_get k rest

/-! ### `lib/analysis.py` -/

/-- One entry of the per-bucket lists built by `Analysis.analyse`
(`lib/analysis.py` lines 105-119): the measured `time_diff` plus the
cache-status heuristics of the two responses. `Analysis.remove_outliers`
and `Analysis.predict` read only `time_diff`. -/
structure Sample where
  time_diff : ℚ
  cache_status_1 : String
  cache_status_2 : String
deriving DecidableEq

/-- The `average` computed in `Analysis.remove_outliers`/`predict`
(`lib/analysis.py` lines 25, 44, 50): arithmetic mean of the `time_diff`
values. -/
def mean_time_diff (data : List Sample) : ℚ :=
  (data.map Sample.time_diff).sum / (data.length : ℚ)

/-- The square of the `std` computed in `Analysis.remove_outliers`
(`lib/analysis.py` line 26): population variance of the `time_diff`
values over the whole (untrimmed) input. -/
def variance_time_diff (data : List Sample) : ℚ :=
  (data.map (fun rp => (rp.time_diff - mean_time_diff data) ^ 2)).sum / (data.length : ℚ)

/-- `Analysis.remove_outliers` (`lib/analysis.py` lines 20-29).
The source keeps `request_pair` iff
`abs(time_diff - average) < factor * std` with `std = variance ** 0.5`.
Because square roots are not rational we store the equivalent squared
comparison `(time_diff - average)^2 < factor^2 * variance`; the theorem
`remove_outliers_mem_spec` below certifies that for the factor `2` used
by the tool this Boolean agrees exactly with the source's
`abs(x - mean) < factor * sqrt variance` over the reals. Mean and
variance are exact here, where the source rounds each float operation;
see the module header and the note at `predict_constant_bucket` for
what this idealization does and does not support. -/
def remove_outliers (data : List Sample) (factor : ℚ) : List Sample :=
  let average := mean_time_diff data
  let var := variance_time_diff data
  data.filter (fun rp => decide ((rp.time_diff - average) ^ 2 < factor ^ 2 * var))

/-- `Analysis.predict` (`lib/analysis.py` lines 31-83), with the single
external call `scipy.stats.ttest_ind(..., equal_var=False)` (Welch's
unequal-variance two-sample t-test) abstracted as the oracle
`ttest_pvalue`, which receives exactly the two lists the source passes
and returns the p-value `p`. The source also computes
`randomized_average`, `randomized_std` and `fixed_std`, but they feed
only `print` statements, not the verdict; they are omitted here.
Returning `none` models Python's bare `return` (verdict `None`).
The source's local names are inlined: `_randomized`/`_fixed` are
`remove_outliers ... 2` (default `factor=2`), `fixed_average` is
`mean_time_diff (remove_outliers fixed 2)`, `enhancing_factor` is `5`
and `alpha` is `0.01 = 1/100`. -/
def predict (ttest_pvalue : List ℚ → List ℚ → ℚ) (randomized fixed : List Sample) :
    Option String :=
  if (remove_outliers randomized 2).length = 0 ∨ (remove_outliers fixed 2).length = 0 then
    none
  else if 0 < mean_time_diff (remove_outliers fixed 2) then some "NO cache"
  else if ttest_pvalue ((remove_outliers randomized 2).map Sample.time_diff)
      ((remove_outliers fixed 2).map (fun rp =>
        if mean_time_diff (remove_outliers fixed 2) < 0 then rp.time_diff * 5
        else rp.time_diff)) ≤ 1 / 100 then some "CACHE"
  else some "NO cache"

/-- The disjunction of the four `any(...)` conditions of
`Analysis.analyse` (`lib/analysis.py` lines 133-136): some sample of
either bucket saw a `HIT` or a `MISS` cache-status heuristic on either
response. -/
def cache_status_evidence (randomized fixed : List Sample) : Bool :=
  randomized.any (fun rp => rp.cache_status_1 == "HIT" || rp.cache_status_2 == "HIT") ||
  fixed.any (fun rp => rp.cache_status_1 == "HIT" || rp.cache_status_2 == "HIT") ||
  randomized.any (fun rp => rp.cache_status_1 == "MISS" || rp.cache_status_2 == "MISS") ||
  fixed.any (fun rp => rp.cache_status_1 == "MISS" || rp.cache_status_2 == "MISS")

/-- The label computation of `Analysis.analyse` for one
`(url, extension, mode)` bucket (`lib/analysis.py` lines 129-141; the
identical code appears in `utils/analyse-experiment.py` lines 129-141).
`label` starts as `'Unknown'`, becomes `'NO cache'` on any `HIT`/`MISS`
evidence, and is finally overwritten with `'CACHE'` when the fixed
bucket has strictly more second-response `HIT` samples than `MISS`
samples. The counts in the source range over
`data[url][extension][mode]['fixed']`, whose `second.cache_status`
entries are, one for one, the `cache_status_2` fields of the `fixed`
list built on lines 113-119. The source's three sequential assignments
to `label` (`'Unknown'`, then conditionally `'NO cache'`, then
conditionally `'CACHE'`) collapse to this conditional with the last
assignment tested first. -/
def analyse_label (randomized fixed : List Sample) : String :=
  if fixed.countP (fun rp => rp.cache_status_2 == "HIT") >
      fixed.countP (fun rp => rp.cache_status_2 == "MISS") then "CACHE"
  else if cache_status_evidence randomized fixed then "NO cache"
  else "Unknown"

/-! ### `lib/cache_buster.py` -/

/-- Python's `string.ascii_letters`. -/
def ascii_letters : List Char :=
  "abcdefghijklmnopqrstuvwxyzABCDEFGHIJKLMNOPQRSTUVWXYZ".data

/-- One draw of `random.choice(string.ascii_letters)`: the random source
is modelled as a stream of indices into `ascii_letters`. The default
`'a'` of `getD` is never used since the index is below 52. -/
def letter (k : Fin 52) : Char := ascii_letters.getD k.val 'a'

/-- `CacheBuster.generate_random_string` (`lib/cache_buster.py` lines
33-34): draw `length` letters from the stream `rand`, starting at stream
position `ctr`. -/
def generate_random_string (rand : ℕ → Fin 52) (ctr length : ℕ) : String :=
  String.mk ((List.range length).map (fun i => letter (rand (ctr + i))))

/-- State shared by all `CacheBuster` instances of one process run:
`cache_busters` models the class attribute `CacheBuster._cache_busters`
(one ledger per process, since in Python `self._cache_busters.append`
mutates the class-level list), and `ctr` is the position reached in the
random stream. -/
structure BusterState where
  ctr : ℕ
  cache_busters : List String
deriving DecidableEq

/-- The `while` loop of `CacheBuster.get_unique_cache_buster`
(`lib/cache_buster.py` lines 41-43): starting from `cache_buster = ''`,
re-roll while the candidate is `''` or already in the ledger. `fuel`
bounds the number of re-rolls; `none` models the (probability-zero)
executions in which the Python loop would still be running. -/
def get_unique_loop (rand : ℕ → Fin 52) (ledger : List String) (length : ℕ) :
    String → ℕ → ℕ → Option (String × ℕ)
  | cb, ctr, 0 =>
    if cb ∈ ledger ∨ cb = "" then none else some (cb, ctr)
  | cb, ctr, fuel + 1 =>
    if cb ∈ ledger ∨ cb = "" then
      get_unique_loop rand ledger length (generate_random_string rand ctr length)
        (ctr + length) fuel
    else some (cb, ctr)

/-- `CacheBuster.get_unique_cache_buster` (`lib/cache_buster.py` lines
36-46): roll until the token is fresh, append it to the process ledger,
and return it. -/
def get_unique_cache_buster (rand : ℕ → Fin 52) (length : ℕ) (st : BusterState)
    (fuel : ℕ) : Option (String × BusterState) :=
  match get_unique_loop rand st.cache_busters length "" st.ctr fuel with
  | none => none
  | some (cb, ctr') => some (cb, ⟨ctr', st.cache_busters ++ [cb]⟩)

/-- A sequence of `n` calls to `get_unique_cache_buster` (with the
default `length=5`) within one process run, threading the shared state;
returns the issued tokens in order. -/
def run_buster_calls (rand : ℕ → Fin 52) (fuel : ℕ) :
    ℕ → BusterState → Option (List String × BusterState)
  | 0, st => some ([], st)
  | n + 1, st =>
    match get_unique_cache_buster rand 5 st fuel with
    | none => none
    | some (t, st') =>
      match run_buster_calls rand fuel n st' with
      | none => none
      | some (ts, st'') => some (t :: ts, st'')

/-- `CacheBuster.TEST_HEADERS` (`lib/cache_buster.py` lines 20-24). -/
def TEST_HEADERS : List String :=
  ["Origin", "User-Agent", "X-Forwarded-Host",
   "X-Forwarded-For", "X-Forwarded-Proto",
   "X-Method-Override", "X-Forwarded-Scheme"]

/-- `CacheBuster.cache_bust_header` (`lib/cache_buster.py` lines 48-88).
Every branch of the source calls `get_unique_cache_buster()` exactly
once; that fresh token is here the explicit argument `token`. -/
def cache_bust_header (site header value token : String) : String :=
  let h := str_lower header
  if h == "user-agent" then value ++ " " ++ token
  else if h == "accept-encoding" then
    (if value == "" then "" ++ token else value ++ ", " ++ token)
  else if h == "accept" then
    "text/html,application/xhtml+xml,application/xml;q=0.9,image/avif,image/webp,*/*;q=0.8," ++ token
  else if h == "accept-language" then "it-IT,it;q=0.9," ++ token
  else if h == "origin" then "https://" ++ site ++ "/" ++ token
  else if h == "x-forwarded-scheme" ||
      (chars_in "x-".data h.data && chars_in "forwarded-proto".data h.data) then
    "http" ++ token
  else if chars_in "x-".data h.data && chars_in "method".data h.data then "GET" ++ token
  else if (chars_in "x-".data h.data &&
      (chars_in "forwarded".data h.data || chars_in "-url".data h.data)) ||
      h == "forwarded" then
    token ++ "." ++ site
  else token

/-- `CacheBuster.cache_bust_cookies` with the default `cache_bust_all=True`
(`lib/cache_buster.py` lines 90-103): append `,token` to every existing
cookie, then add the cookie `token = token`. -/
def cache_bust_cookies (cookies : List (String × String)) (token : String) :
    List (String × String) :=
  dict_set (cookies.map (fun kv => (kv.1, kv.2 ++ "," ++ token))) token token

/-- The result type of Python's `urllib.parse.urlparse`; `urlparse` and
`urlunparse` are standard-library externals, so URLs are modelled
directly as their parsed six components. -/
structure Url where
  scheme : String
  netloc : String
  path : String
  params : String
  query : String
  fragment : String
deriving DecidableEq

/-- `CacheBuster.cache_bust_query` (`lib/cache_buster.py` lines 105-120).
Note the source's line 117 (`query = cache_buster + '=' + cache_buster`
under `if parsed.query == ''`) is dead: line 118 unconditionally
recomputes `query` from `parsed.query`. -/
def cache_bust_query (url : Url) (token : String) : Url :=
  let query := url.query ++ (if url.query != "" then "&" else "") ++ token ++ "=" ++ token
  { url with query := query }

/-- `CacheBuster.cache_bust_path` (`lib/cache_buster.py` lines 122-135). -/
def cache_bust_path (url : Url) (token : String) : Url :=
  let path :=
    if "/".data.isSuffixOf url.path.data then url.path ++ token
    else url.path ++ "/" ++ token
  { url with path := path }

/-- The `for header in self.TEST_HEADERS` loop of
`CacheBuster.cache_bust_request` (`lib/cache_buster.py` lines 152-156):
each of the seven headers is set to `cache_bust_header(site, header,
old-value-or-'')` with a fresh token. `(dict_get h m).getD ""`
is `headers[header] if header in headers else ''`. -/
def test_headers_pass (site : String) (tok : ℕ → String)
    (headers : List (String × String)) (ctr : ℕ) : List (String × String) × ℕ :=
  TEST_HEADERS.foldl
    (fun acc h =>
      (dict_set acc.1 h (cache_bust_header site h ((dict_get h acc.1).getD "") (tok acc.2)),
       acc.2 + 1))
    (headers, ctr)

/-- One iteration of the `for header in vary.split(',')` loop of
`CacheBuster.cache_bust_request` (`lib/cache_buster.py` lines 162-168):
lowercase and strip the listed name; skip it when it is `'cookie'` or a
substring of some `TEST_HEADERS` name (the source's
`any(header in h.lower() for h in self.TEST_HEADERS)`); otherwise set it
with `cache_bust_header` and a fresh token. The source's loop variable
`header` (reassigned to `header.strip().lower()`) appears here as the
repeated expression `str_lower (py_strip hdr)`. -/
def vary_step (site : String) (tok : ℕ → String)
    (acc : List (String × String) × ℕ) (hdr : String) : List (String × String) × ℕ :=
  if TEST_HEADERS.any (fun th => str_in (str_lower (py_strip hdr)) (str_lower th)) ||
      (str_lower (py_strip hdr) == "cookie") then acc
  else
    (dict_set acc.1 (str_lower (py_strip hdr))
      (cache_bust_header site (str_lower (py_strip hdr))
        ((dict_get (str_lower (py_strip hdr)) acc.1).getD "") (tok acc.2)),
     acc.2 + 1)

/-- Result of `CacheBuster.cache_bust_request`: the mutated URL, headers
and cookies, plus the stream position after all fresh-token draws. -/
structure BustResult where
  url : Url
  headers : List (String × String)
  cookies : List (String × String)
  next_ctr : ℕ
deriving DecidableEq

/-- `CacheBuster.cache_bust_request` (`lib/cache_buster.py` lines
137-170), with fresh tokens drawn from the supply `tok` at successive
counters (each `get_unique_cache_buster()` call of the source consumes
one supply position): optional path busting, then query busting, then
the `TEST_HEADERS` pass, then cookie busting, then the Vary echo pass. -/
def cache_bust_request (tok : ℕ → String) (ctr : ℕ) (url : Url)
    (headers cookies : List (String × String)) (vary : String) (path : Bool) :
    BustResult :=
  let site := url.netloc
  let url1 := if path then cache_bust_path url (tok ctr) else url
  let ctr1 := if path then ctr + 1 else ctr
  let url2 := cache_bust_query url1 (tok ctr1)
  let ctr2 := ctr1 + 1
  let hp := test_headers_pass site tok headers ctr2
  let cookies1 := cache_bust_cookies cookies (tok hp.2)
  let ctr3 := hp.2 + 1
  let vp := (py_split_comma vary).foldl (vary_step site tok) (hp.1, ctr3)
  ⟨url2, vp.1, cookies1, vp.2⟩

/-! ### `lib/h2time.py` -/

/-- The port computation of `H2Request.set_url` (`lib/h2time.py` line 38):
`self.port = parsed.port or 443 if self.scheme == 'https' else 80`.
By Python operator precedence this parses as
`(parsed.port or 443) if scheme == 'https' else 80`, and Python's `or`
treats the port `0` as falsy; both are reproduced here literally. -/
def set_url_port (scheme : String) (parsed_port : Option ℕ) : ℕ :=
  if scheme == "https" then
    match parsed_port with
    | some p => if p ≠ 0 then p else 443
    | none => 443
  else 80

/-! ### Experiment controllers -/

/-- The redirect-following loop of the controllers
(`experiment-wcd.py` lines 299-359 and 407-465,
`preliminary-experiment.py` lines 555-606): `redirects_followed` starts
at 0, the guard is `following_redirects and redirects_followed < 5`, the
body clears `following_redirects` and, when round `n` of the pair
observes a 3xx with a `location` (abstracted as `redirects n = true`),
sets it again and increments the counter. The function returns the final
counter, i.e. the number of redirects followed before the loop exits;
its totality in Lean is the loop's termination. -/
def follow_redirects (redirects : ℕ → Bool) (n count : ℕ) : ℕ :=
  if count < 5 then
    if redirects n then follow_redirects redirects (n + 1) (count + 1) else count
  else count
termination_by 5 - count

/-- One entry of `sent_requests['fixed']` in `preliminary-experiment.py`
(lines 615-629): the measured `time_diff` and the cache-status
heuristics of the two responses. Python compares these dicts
structurally in `list.remove`; equality on this structure models that. -/
structure PSample where
  time_diff : ℚ
  first_cache_status : String
  second_cache_status : String
deriving DecidableEq

/-- The post-round filter of `preliminary-experiment.py` (lines 631-638):
iterate over a snapshot (`sent_requests['fixed'].copy()`) and, for every
entry whose first response was a cache `HIT`, call `list.remove`, which
deletes the first structurally-equal element of the live list.
`List.erase` with the `DecidableEq`-derived `BEq` is exactly
`list.remove` minus the `ValueError` (never raised here: each removed
element was found in the snapshot of the same list). -/
def remove_first_hits (fixed : List PSample) : List PSample :=
  fixed.foldl
    (fun current rp =>
      if rp.first_cache_status == "HIT" then current.erase rp else current)
    fixed

/-- What the preliminary controller does after filtering the fixed bucket
(`preliminary-experiment.py` lines 640-662): with fewer than 5 surviving
samples it `continue`s to the next URL — no output file is written and
no analysis/verdict is produced for this URL (`abandoned`); otherwise it
writes `output/<site>-<date>.json` and hands the data to the analyser
(`saved`). -/
inductive FixedRoundAction where
  | abandoned
  | saved (kept : List PSample)
deriving DecidableEq

/-- The decision on `preliminary-experiment.py` lines 640-643: note
`sent_requests['fixed']` always exists here (initialised on line 535),
so the `'fixed' in sent_requests` conjunct is always true. -/
def fixed_round_post (fixed : List PSample) : FixedRoundAction :=
  let kept := remove_first_hits fixed
  if kept.length < 5 then FixedRoundAction.abandoned else FixedRoundAction.saved kept

/-! ### Concrete inputs used by witnesses and counterexamples -/

/-- A t-test oracle that always reports p = 0 (maximally significant). -/
def pv_zero : List ℚ → List ℚ → ℚ := fun _ _ => 0

/-- A t-test oracle that always reports p = 1 (never significant). -/
def pv_one : List ℚ → List ℚ → ℚ := fun _ _ => 1

/-- Two samples at ±1 ms: outlier trimming keeps both (σ = 1, both within 2σ). -/
def spread_data : List Sample := [⟨-1, "", ""⟩, ⟨1, "", ""⟩]

/-- Two samples with strictly positive mean 3; trimming keeps both. -/
def pos_fixed_data : List Sample := [⟨2, "", ""⟩, ⟨4, "", ""⟩]

/-- Two identical samples: σ = 0, so the strict `< 2σ` filter drops both. -/
def const_data : List Sample := [⟨1, "", ""⟩, ⟨1, "", ""⟩]

/-- Three identical samples with time_diff 7. -/
def const7_data : List Sample := [⟨7, "", ""⟩, ⟨7, "", ""⟩, ⟨7, "", ""⟩]

/-- A randomized bucket with no cache-status evidence. -/
def c4_randomized : List Sample := [⟨0, "-", "-"⟩]

/-- A fixed bucket whose second responses read HIT, -, -: one HIT, zero
MISS, three samples. -/
def c4_fixed : List Sample := [⟨0, "-", "HIT"⟩, ⟨0, "-", "-"⟩, ⟨0, "-", "-"⟩]

/-- A concrete random stream: the i-th draw is letter number `i % 52`. -/
def demo_rand : ℕ → Fin 52 := fun i => ⟨i % 52, Nat.mod_lt i (by decide)⟩

/-- A constant token supply for counterexample evaluation. -/
def tok_const : ℕ → String := fun _ => "ZZZZZ"

/-- A concrete parsed URL. -/
def url_demo : Url := ⟨"https", "example.com", "/", "", "", ""⟩

/-- A fixed bucket of the preliminary experiment in which the first
response of the first sample was a HIT. -/
def p_fixed_demo : List PSample := [⟨-5, "HIT", "HIT"⟩, ⟨-6, "MISS", "HIT"⟩]

/-! ## Theorems -/

/-! ### Analysis helper lemmas -/

theorem variance_time_diff_nonneg (data : List Sample) : 0 ≤ variance_time_diff data := by
  unfold variance_time_diff
  apply div_nonneg
  · apply List.sum_nonneg
    intro x hx
    simp only [List.mem_map] at hx
    obtain ⟨rp, -, rfl⟩ := hx
    positivity
  · exact Nat.cast_nonneg _

theorem abs_lt_mul_sqrt_iff (d f v : ℝ) (hv : 0 ≤ v) (hf : 0 ≤ f) :
    |d| < f * Real.sqrt v ↔ d ^ 2 < f ^ 2 * v := by
  constructor
  · intro h
    have h2 : |d| ^ 2 < (f * Real.sqrt v) ^ 2 :=
      pow_lt_pow_left₀ h (abs_nonneg d) (by norm_num)
    rwa [sq_abs, mul_pow, Real.sq_sqrt hv] at h2
  · intro h
    have h2 : |d| ^ 2 < (f * Real.sqrt v) ^ 2 := by
      rw [sq_abs, mul_pow, Real.sq_sqrt hv]
      exact h
    exact lt_of_pow_lt_pow_left₀ 2 (by positivity) h2

theorem outlier_keep_iff (data : List Sample) (rp : Sample) :
    ((rp.time_diff - mean_time_diff data) ^ 2 < 2 ^ 2 * variance_time_diff data) ↔
      |(rp.time_diff : ℝ) - ((mean_time_diff data : ℚ) : ℝ)| <
        2 * Real.sqrt ((variance_time_diff data : ℚ) : ℝ) := by
  have hv : (0 : ℝ) ≤ ((variance_time_diff data : ℚ) : ℝ) := by
    exact_mod_cast variance_time_diff_nonneg data
  rw [abs_lt_mul_sqrt_iff _ 2 _ hv (by norm_num)]
  constructor
  · intro h
    exact_mod_cast h
  · intro h
    exact_mod_cast h

/-- C2 (amended): `Analysis.remove_outliers` with factor 2 is a single
filter pass whose mean and population σ are those of the untrimmed
input; it keeps exactly the points at distance strictly less than 2σ
from that mean (points at distance 2σ or more are dropped) and preserves
their original order (the result is a sublist of the input). -/
theorem remove_outliers_mem_spec (data : List Sample) (rp : Sample) :
    (remove_outliers data 2).Sublist data ∧
    (rp ∈ remove_outliers data 2 ↔
      rp ∈ data ∧
        |(rp.time_diff : ℝ) - ((mean_time_diff data : ℚ) : ℝ)| <
          2 * Real.sqrt ((variance_time_diff data : ℚ) : ℝ)) := by
  constructor
  · exact List.filter_sublist data
  · simp only [remove_outliers, List.mem_filter, decide_eq_true_eq]
    exact and_congr_right fun _ => outlier_keep_iff data rp

theorem remove_outliers_mem_spec_witness :
    (remove_outliers spread_data 2).Sublist spread_data ∧
    ((⟨-1, "", ""⟩ : Sample) ∈ remove_outliers spread_data 2 ↔
      (⟨-1, "", ""⟩ : Sample) ∈ spread_data ∧
        |((⟨-1, "", ""⟩ : Sample).time_diff : ℝ) - ((mean_time_diff spread_data : ℚ) : ℝ)| <
          2 * Real.sqrt ((variance_time_diff spread_data : ℚ) : ℝ)) :=
  remove_outliers_mem_spec spread_data ⟨-1, "", ""⟩

/-- C2 (counterexample): on two identical samples the mean is the common
value and σ = 0, so every point is at distance 0, which is *not greater*
than 2σ = 0 — yet the source's strict comparison drops both points and
returns the empty list, refuting the claimed "points whose distance is
not greater than 2σ are kept". -/
theorem remove_outliers_boundary_counterexample :
    remove_outliers const_data 2 = [] ∧
    ∀ s ∈ const_data,
      |(s.time_diff : ℝ) - ((mean_time_diff const_data : ℚ) : ℝ)| ≤
        2 * Real.sqrt ((variance_time_diff const_data : ℚ) : ℝ) := by
  have hmean : mean_time_diff const_data = 1 := by
    norm_num [mean_time_diff, const_data]
  have hvar : variance_time_diff const_data = 0 := by
    norm_num [variance_time_diff, mean_time_diff, const_data]
  constructor
  · norm_num [remove_outliers, mean_time_diff, variance_time_diff, const_data, List.filter]
  · intro s hs
    have hs' : s.time_diff = 1 := by
      simp only [const_data, List.mem_cons, List.not_mem_nil, or_false] at hs
      rcases hs with rfl | rfl <;> rfl
    rw [hs', hmean, hvar]
    simp

/-- Model-level fact, exact arithmetic only: on a non-empty sample list
whose `time_diff` values are all equal, the exact population σ is 0,
the strict comparison `abs(x - mean) < 2σ` holds for no point, so
`remove_outliers` returns the empty list and `predict` with constant
timing data in either bucket returns no verdict. This does NOT transfer
to the Python program, which computes in IEEE-754 doubles: when the
float mean of a constant list rounds inexactly (e.g. `[0.1, 0.1, 0.1]`,
whose mean is `0.10000000000000002`), the computed σ is `> 0`, the
filter `|x - mean| < 2σ` keeps every point, and `predict` returns a
verdict (`'NO cache'` for that list as the fixed bucket). The statement
below is therefore a property of the rational idealization, and only of
it; on the program it holds just for float-exact constants such as the
small-integer inputs used in the accompanying application. -/
theorem predict_constant_bucket (pv : List ℚ → List ℚ → ℚ) (l other : List Sample) (c : ℚ)
    (hne : l ≠ []) (hconst : ∀ s ∈ l, s.time_diff = c) :
    remove_outliers l 2 = [] ∧ predict pv l other = none ∧ predict pv other l = none := by
  have hlen : (l.length : ℚ) ≠ 0 :=
    Nat.cast_ne_zero.mpr fun h0 => hne (List.length_eq_zero.mp h0)
  have hmap : l.map Sample.time_diff = List.replicate l.length c := by
    rw [List.eq_replicate_iff]
    refine ⟨by simp, ?_⟩
    intro b hb
    simp only [List.mem_map] at hb
    obtain ⟨s, hs, rfl⟩ := hb
    exact hconst s hs
  have hmean : mean_time_diff l = c := by
    rw [mean_time_diff, hmap, List.sum_replicate, nsmul_eq_mul, mul_comm,
      mul_div_assoc, div_self hlen, mul_one]
  have hvar : variance_time_diff l = 0 := by
    rw [variance_time_diff]
    have hz : l.map (fun rp => (rp.time_diff - mean_time_diff l) ^ 2) =
        List.replicate l.length 0 := by
      rw [List.eq_replicate_iff]
      refine ⟨by simp, ?_⟩
      intro b hb
      simp only [List.mem_map] at hb
      obtain ⟨s, hs, rfl⟩ := hb
      rw [hconst s hs, hmean]
      ring
    rw [hz, List.sum_replicate]
    simp
  have hempty : remove_outliers l 2 = [] := by
    simp only [remove_outliers]
    rw [List.filter_eq_nil_iff]
    intro a ha
    rw [decide_eq_true_eq, hconst a ha, hmean, hvar]
    norm_num
  refine ⟨hempty, ?_, ?_⟩
  · unfold predict
    simp [hempty]
  · unfold predict
    simp [hempty]

theorem predict_constant_bucket_witness :
    remove_outliers const7_data 2 = [] ∧
    predict pv_zero const7_data spread_data = none ∧
    predict pv_zero spread_data const7_data = none := by
  refine predict_constant_bucket pv_zero const7_data spread_data 7 (by simp [const7_data]) ?_
  intro s hs
  simp only [const7_data, List.mem_cons, List.not_mem_nil, or_false] at hs
  rcases hs with rfl | rfl | rfl <;> rfl

/-- C3: when either input list becomes empty after outlier trimming,
`Analysis.predict` executes the bare `return` on line 41 of
`lib/analysis.py` and yields no verdict (`None`), not the string
`'NO cache'`: callers observe a missing (inconclusive) verdict. -/
theorem predict_undefined_of_trim_empty (pv : List ℚ → List ℚ → ℚ)
    (randomized fixed : List Sample) (_hr : randomized ≠ []) (_hf : fixed ≠ [])
    (h : remove_outliers randomized 2 = [] ∨ remove_outliers fixed 2 = []) :
    predict pv randomized fixed = none := by
  unfold predict
  rcases h with h | h <;> simp [h]

theorem predict_undefined_of_trim_empty_witness :
    predict pv_zero const_data spread_data = none := by
  refine predict_undefined_of_trim_empty pv_zero const_data spread_data
    (by simp [const_data]) (by simp [spread_data]) (Or.inl ?_)
  norm_num [remove_outliers, mean_time_diff, variance_time_diff, const_data, List.filter]

/-- C1: for non-empty inputs that stay non-empty after trimming,
`Analysis.predict` (i) returns `'NO cache'` whenever the mean of the
trimmed fixed `time_diff` values is strictly positive, and in that
branch the result does not depend on the t-test oracle at all (the
t-test is not run); (ii) otherwise it hands the oracle — the model of
`scipy.stats.ttest_ind(..., equal_var=False)`, Welch's unequal-variance
t-test — the trimmed randomized `time_diff`s and the trimmed fixed
`time_diff`s each multiplied by 5 exactly when that mean is strictly
negative (unamplified when the mean is exactly 0), returning `'CACHE'`
when the reported p satisfies p ≤ 0.01 (equality included) and
`'NO cache'` otherwise; (iii) so `'CACHE'` is returned iff the mean is
not strictly positive and p ≤ 0.01. -/
theorem predict_verdict_spec (pv pv' : List ℚ → List ℚ → ℚ)
    (randomized fixed : List Sample) (_hr : randomized ≠ []) (_hf : fixed ≠ [])
    (hr2 : remove_outliers randomized 2 ≠ []) (hf2 : remove_outliers fixed 2 ≠ []) :
    (0 < mean_time_diff (remove_outliers fixed 2) →
      predict pv randomized fixed = some "NO cache" ∧
      predict pv randomized fixed = predict pv' randomized fixed) ∧
    (¬ 0 < mean_time_diff (remove_outliers fixed 2) →
      predict pv randomized fixed =
        some (if pv ((remove_outliers randomized 2).map Sample.time_diff)
            ((remove_outliers fixed 2).map (fun rp =>
              if mean_time_diff (remove_outliers fixed 2) < 0 then rp.time_diff * 5
              else rp.time_diff)) ≤ 1 / 100 then "CACHE" else "NO cache")) ∧
    (predict pv randomized fixed = some "CACHE" ↔
      ¬ 0 < mean_time_diff (remove_outliers fixed 2) ∧
        pv ((remove_outliers randomized 2).map Sample.time_diff)
          ((remove_outliers fixed 2).map (fun rp =>
            if mean_time_diff (remove_outliers fixed 2) < 0 then rp.time_diff * 5
            else rp.time_diff)) ≤ 1 / 100) := by
  have hlen : ¬ ((remove_outliers randomized 2).length = 0 ∨
      (remove_outliers fixed 2).length = 0) := by
    simp [List.length_eq_zero, hr2, hf2]
  unfold predict
  simp only [if_neg hlen]
  refine ⟨?_, ?_, ?_⟩
  · intro hpos
    simp only [if_pos hpos]
    exact ⟨trivial, trivial⟩
  · intro hpos
    simp only [if_neg hpos]
    rw [apply_ite some]
  · by_cases hpos : 0 < mean_time_diff (remove_outliers fixed 2)
    · simp only [if_pos hpos]
      constructor
      · intro h
        exact absurd (Option.some.inj h) (by decide)
      · rintro ⟨h1, -⟩
        exact absurd hpos h1
    · simp only [if_neg hpos]
      by_cases hp : pv ((remove_outliers randomized 2).map Sample.time_diff)
          ((remove_outliers fixed 2).map (fun rp =>
            if mean_time_diff (remove_outliers fixed 2) < 0 then rp.time_diff * 5
            else rp.time_diff)) ≤ 1 / 100
      · simp only [if_pos hp]
        exact iff_of_true trivial ⟨hpos, hp⟩
      · simp only [if_neg hp]
        constructor
        · intro h
          exact absurd (Option.some.inj h) (by decide)
        · rintro ⟨-, h2⟩
          exact absurd h2 hp

theorem predict_verdict_spec_witness :
    (0 < mean_time_diff (remove_outliers pos_fixed_data 2) →
      predict pv_zero spread_data pos_fixed_data = some "NO cache" ∧
      predict pv_zero spread_data pos_fixed_data = predict pv_one spread_data pos_fixed_data) ∧
    (¬ 0 < mean_time_diff (remove_outliers pos_fixed_data 2) →
      predict pv_zero spread_data pos_fixed_data =
        some (if pv_zero ((remove_outliers spread_data 2).map Sample.time_diff)
            ((remove_outliers pos_fixed_data 2).map (fun rp =>
              if mean_time_diff (remove_outliers pos_fixed_data 2) < 0 then rp.time_diff * 5
              else rp.time_diff)) ≤ 1 / 100 then "CACHE" else "NO cache")) ∧
    (predict pv_zero spread_data pos_fixed_data = some "CACHE" ↔
      ¬ 0 < mean_time_diff (remove_outliers pos_fixed_data 2) ∧
        pv_zero ((remove_outliers spread_data 2).map Sample.time_diff)
          ((remove_outliers pos_fixed_data 2).map (fun rp =>
            if mean_time_diff (remove_outliers pos_fixed_data 2) < 0 then rp.time_diff * 5
            else rp.time_diff)) ≤ 1 / 100) := by
  refine predict_verdict_spec pv_zero pv_one spread_data pos_fixed_data
    (by decide) (by decide) ?_ ?_
  · norm_num [remove_outliers, mean_time_diff, variance_time_diff, spread_data, List.filter]
    decide
  · norm_num [remove_outliers, mean_time_diff, variance_time_diff, pos_fixed_data, List.filter]
    decide

/-! ### C4: the label computation of `Analysis.analyse` -/

/-- C4 (amended): the bucket label starts as `'Unknown'`; it becomes
`'NO cache'` exactly when some sample of either bucket has a first- or
second-response cache status equal to `'HIT'` or `'MISS'` (and the CACHE
override does not fire); and it is overridden to `'CACHE'` exactly when
the number of fixed-bucket second-response `'HIT'` samples strictly
exceeds the number of `'MISS'` samples — a plurality over `'MISS'`, not
a majority of all samples. -/
theorem analyse_label_spec (randomized fixed : List Sample) :
    (analyse_label randomized fixed = "CACHE" ↔
      fixed.countP (fun rp => rp.cache_status_2 == "HIT") >
        fixed.countP (fun rp => rp.cache_status_2 == "MISS")) ∧
    (fixed.countP (fun rp => rp.cache_status_2 == "HIT") ≤
        fixed.countP (fun rp => rp.cache_status_2 == "MISS") →
      (analyse_label randomized fixed = "NO cache" ↔
        cache_status_evidence randomized fixed = true) ∧
      (analyse_label randomized fixed = "Unknown" ↔
        cache_status_evidence randomized fixed = false)) := by
  unfold analyse_label
  by_cases hc : fixed.countP (fun rp => rp.cache_status_2 == "HIT") >
      fixed.countP (fun rp => rp.cache_status_2 == "MISS")
  · rw [if_pos hc]
    constructor
    · exact iff_of_true rfl hc
    · intro hle
      exact absurd hc (not_lt.mpr hle)
  · rw [if_neg hc]
    constructor
    · constructor
      · intro h
        by_cases he : cache_status_evidence randomized fixed = true
        · rw [if_pos he] at h
          exact absurd h (by decide)
        · rw [if_neg he] at h
          exact absurd h (by decide)
      · intro h
        exact absurd h hc
    · intro hle
      by_cases he : cache_status_evidence randomized fixed = true
      · rw [if_pos he]
        constructor
        · exact iff_of_true rfl he
        · exact iff_of_false (by decide) (by simp [he])
      · rw [if_neg he]
        have he' : cache_status_evidence randomized fixed = false := by
          cases hcb : cache_status_evidence randomized fixed
          · rfl
          · exact absurd hcb he
        constructor
        · exact iff_of_false (by decide) (by simp [he'])
        · exact iff_of_true rfl he'

theorem analyse_label_spec_witness :
    (analyse_label c4_randomized c4_fixed = "CACHE" ↔
      c4_fixed.countP (fun rp => rp.cache_status_2 == "HIT") >
        c4_fixed.countP (fun rp => rp.cache_status_2 == "MISS")) ∧
    ((analyse_label c4_randomized spread_data = "NO cache" ↔
        cache_status_evidence c4_randomized spread_data = true) ∧
      (analyse_label c4_randomized spread_data = "Unknown" ↔
        cache_status_evidence c4_randomized spread_data = false)) :=
  ⟨(analyse_label_spec c4_randomized c4_fixed).1,
   (analyse_label_spec c4_randomized spread_data).2 (by decide)⟩

/-- C4 (counterexample): in a bucket whose fixed second responses read
`HIT`, `-`, `-` (one `HIT`, zero `MISS`, three samples) the label is
overridden to `'CACHE'`, yet the `HIT` samples are not a majority of the
fixed bucket's second-response samples (1 of 3): the override fires on
`#HIT > #MISS`, not on a majority. -/
theorem analyse_label_majority_counterexample :
    analyse_label c4_randomized c4_fixed = "CACHE" ∧
    ¬ 2 * c4_fixed.countP (fun rp => rp.cache_status_2 == "HIT") > c4_fixed.length := by
  constructor
  · decide
  · decide

/-! ### C7: the port computation of `H2Request.set_url` -/

/-- C7 (amended): for an `https` URL the derived port is the explicit
non-zero port when present and 443 otherwise; for any other scheme —
in particular `http` — the port is always 80, even when the URL carries
an explicit port (Python parses line 38 of `lib/h2time.py` as
`(parsed.port or 443) if scheme == 'https' else 80`). -/
theorem set_url_port_spec (parsed_port : Option ℕ) (p : ℕ) :
    (p ≠ 0 → set_url_port "https" (some p) = p) ∧
    set_url_port "https" none = 443 ∧
    (∀ scheme : String, scheme ≠ "https" → set_url_port scheme parsed_port = 80) := by
  refine ⟨?_, rfl, ?_⟩
  · intro hp
    simp [set_url_port, hp]
  · intro scheme hs
    have hb : (scheme == "https") = false := by
      simp [hs]
    simp [set_url_port, hb]

theorem set_url_port_spec_witness :
    set_url_port "https" (some 9443) = 9443 ∧ set_url_port "https" none = 443 ∧
    set_url_port "http" (some 8080) = 80 :=
  ⟨(set_url_port_spec (some 8080) 9443).1 (by decide),
   (set_url_port_spec (some 8080) 9443).2.1,
   (set_url_port_spec (some 8080) 9443).2.2 "http" (by decide)⟩

/-- C7 (counterexample): `http://host:8080/...` derives port 80, not the
explicit port 8080. -/
theorem set_url_port_http_counterexample :
    set_url_port "http" (some 8080) = 80 ∧ (80 : ℕ) ≠ 8080 :=
  ⟨rfl, by decide⟩

/-! ### C8: the redirect-following loop -/

theorem follow_redirects_le (redirects : ℕ → Bool) (n count : ℕ) (h : count ≤ 5) :
    follow_redirects redirects n count ≤ 5 := by
  rw [follow_redirects]
  split
  · split
    · exact follow_redirects_le redirects (n + 1) (count + 1) (by omega)
    · omega
  · omega
termination_by 5 - count

theorem follow_redirects_of_all_true (n count : ℕ) (h : count ≤ 5) :
    follow_redirects (fun _ => true) n count = 5 := by
  rw [follow_redirects]
  split
  · simp only [if_true]
    exact follow_redirects_of_all_true (n + 1) (count + 1) (by omega)
  · omega
termination_by 5 - count

/-- C8: the redirect loop of the controllers is modelled by the total
function `follow_redirects` (its acceptance by Lean's termination
checker is the loop's termination, for every possible sequence of round
outcomes — including a self-redirect whose `location` equals the request
URL, i.e. `redirects` constantly true). Starting from
`redirects_followed = 0` the loop follows at most 5 redirects before
giving the pair up, the counter increasing by exactly 1 on each followed
redirect (see the recursive call), and under a perpetual redirect loop
it stops after exactly 5. -/
theorem follow_redirects_spec (redirects : ℕ → Bool) :
    follow_redirects redirects 0 0 ≤ 5 ∧ follow_redirects (fun _ => true) 0 0 = 5 :=
  ⟨follow_redirects_le redirects 0 0 (by omega), follow_redirects_of_all_true 0 0 (by omega)⟩

/-! ### C9: the preliminary experiment's fixed-round filter -/

theorem remove_first_hits_aux (todo : List PSample) :
    ∀ cur : List PSample,
      (∀ v : PSample, v.first_cache_status = "HIT" → cur.count v ≤ todo.count v) →
      ∀ s ∈ todo.foldl (fun current rp =>
          if rp.first_cache_status == "HIT" then current.erase rp else current) cur,
        s.first_cache_status ≠ "HIT" := by
  induction todo with
  | nil =>
    intro cur h s hs hhit
    simp only [List.foldl_nil] at hs
    have h0 := h s hhit
    simp only [List.count_nil, Nat.le_zero] at h0
    exact absurd hs (List.count_eq_zero.mp h0)
  | cons r rest ih =>
    intro cur h s hs
    simp only [List.foldl_cons] at hs
    by_cases hr : r.first_cache_status = "HIT"
    · rw [if_pos (by simpa using hr)] at hs
      refine ih (cur.erase r) ?_ s hs
      intro v hv
      by_cases hvr : v = r
      · subst hvr
        have h1 : (cur.erase v).count v = cur.count v - 1 := by
          rw [List.count_erase]
          simp
        have h2 := h v hv
        rw [List.count_cons] at h2
        simp at h2
        omega
      · have h1 : (cur.erase r).count v = cur.count v := by
          rw [List.count_erase]
          have hrb : (r == v) = false := by
            simp [Ne.symm hvr]
          simp [hrb]
        rw [h1]
        have h2 := h v hv
        rw [List.count_cons] at h2
        have hrb : (r == v) = false := by
          simp [Ne.symm hvr]
        simpa [hrb] using h2
    · rw [if_neg (by simpa using hr)] at hs
      refine ih cur ?_ s hs
      intro v hv
      have h2 := h v hv
      rw [List.count_cons] at h2
      have hrb : (r == v) = false := by
        have : r ≠ v := fun e => hr (e ▸ hv)
        simp [this]
      simpa [hrb] using h2

/-- C9: after the post-round filter of the preliminary experiment, every
sample retained in the fixed bucket has a first-response cache status
different from `'HIT'` (each sample whose first response was a HIT has
been removed), and when fewer than 5 samples survive the controller
abandons the URL (`continue`s to the next one, writing no output file
and producing no verdict); with 5 or more survivors it proceeds to save
and analyse them. -/
theorem fixed_round_filter_spec (fixed : List PSample) :
    (∀ s ∈ remove_first_hits fixed, s.first_cache_status ≠ "HIT") ∧
    ((remove_first_hits fixed).length < 5 →
      fixed_round_post fixed = FixedRoundAction.abandoned) ∧
    (¬ (remove_first_hits fixed).length < 5 →
      fixed_round_post fixed = FixedRoundAction.saved (remove_first_hits fixed)) := by
  refine ⟨?_, ?_, ?_⟩
  · intro s hs
    exact remove_first_hits_aux fixed fixed (fun v _ => le_refl _) s hs
  · intro h
    simp only [fixed_round_post]
    rw [if_pos h]
  · intro h
    simp only [fixed_round_post]
    rw [if_neg h]

theorem fixed_round_filter_spec_witness :
    (∀ s ∈ remove_first_hits p_fixed_demo, s.first_cache_status ≠ "HIT") ∧
    fixed_round_post p_fixed_demo = FixedRoundAction.abandoned :=
  ⟨(fixed_round_filter_spec p_fixed_demo).1,
   (fixed_round_filter_spec p_fixed_demo).2.1 (by decide)⟩

/-! ### C5: uniqueness of cache-buster tokens -/

theorem letter_mem (k : Fin 52) : letter k ∈ ascii_letters := by
  have hlt : k.val < ascii_letters.length := by
    have h52 : ascii_letters.length = 52 := by decide
    rw [h52]
    exact k.isLt
  rw [letter, List.getD_eq_getElem ascii_letters 'a' hlt]
  exact List.getElem_mem hlt

theorem generate_random_string_length (rand : ℕ → Fin 52) (ctr len : ℕ) :
    (generate_random_string rand ctr len).length = len := by
  simp [generate_random_string, String.length]

theorem generate_random_string_alpha (rand : ℕ → Fin 52) (ctr len : ℕ) :
    ∀ ch ∈ (generate_random_string rand ctr len).data, ch ∈ ascii_letters := by
  intro ch hch
  have hd : (generate_random_string rand ctr len).data =
      (List.range len).map (fun i => letter (rand (ctr + i))) := rfl
  rw [hd] at hch
  obtain ⟨i, -, rfl⟩ := List.mem_map.mp hch
  exact letter_mem _

theorem get_unique_loop_spec (rand : ℕ → Fin 52) (ledger : List String) (len : ℕ) :
    ∀ (fuel : ℕ) (cb : String) (ctr : ℕ) (t : String) (ctr' : ℕ),
      get_unique_loop rand ledger len cb ctr fuel = some (t, ctr') →
      (cb = "" ∨ (cb.length = len ∧ ∀ ch ∈ cb.data, ch ∈ ascii_letters)) →
      t ∉ ledger ∧ t.length = len ∧ ∀ ch ∈ t.data, ch ∈ ascii_letters := by
  intro fuel
  induction fuel with
  | zero =>
    intro cb ctr t ctr' h hcb
    simp only [get_unique_loop] at h
    by_cases hc : cb ∈ ledger ∨ cb = ""
    · rw [if_pos hc] at h
      exact absurd h (by simp)
    · rw [if_neg hc] at h
      have hpair := Option.some.inj h
      obtain ⟨rfl, -⟩ : cb = t ∧ ctr = ctr' :=
        ⟨congrArg Prod.fst hpair, congrArg Prod.snd hpair⟩
      push_neg at hc
      rcases hcb with rfl | ⟨h1, h2⟩
      · exact absurd rfl hc.2
      · exact ⟨hc.1, h1, h2⟩
  | succ fuel ih =>
    intro cb ctr t ctr' h hcb
    simp only [get_unique_loop] at h
    by_cases hc : cb ∈ ledger ∨ cb = ""
    · rw [if_pos hc] at h
      exact ih _ _ t ctr' h
        (Or.inr ⟨generate_random_string_length rand ctr len,
          generate_random_string_alpha rand ctr len⟩)
    · rw [if_neg hc] at h
      have hpair := Option.some.inj h
      obtain ⟨rfl, -⟩ : cb = t ∧ ctr = ctr' :=
        ⟨congrArg Prod.fst hpair, congrArg Prod.snd hpair⟩
      push_neg at hc
      rcases hcb with rfl | ⟨h1, h2⟩
      · exact absurd rfl hc.2
      · exact ⟨hc.1, h1, h2⟩

theorem get_unique_cache_buster_spec (rand : ℕ → Fin 52) (len : ℕ) (st : BusterState)
    (fuel : ℕ) (t : String) (st' : BusterState)
    (h : get_unique_cache_buster rand len st fuel = some (t, st')) :
    t ∉ st.cache_busters ∧ st'.cache_busters = st.cache_busters ++ [t] ∧
      t.length = len ∧ ∀ ch ∈ t.data, ch ∈ ascii_letters := by
  unfold get_unique_cache_buster at h
  cases hl : get_unique_loop rand st.cache_busters len "" st.ctr fuel with
  | none =>
    rw [hl] at h
    exact absurd h (by simp)
  | some pr =>
    obtain ⟨cb, ctr'⟩ := pr
    rw [hl] at h
    have hspec := get_unique_loop_spec rand st.cache_busters len fuel "" st.ctr cb ctr' hl
      (Or.inl rfl)
    have hpair := Option.some.inj h
    obtain ⟨rfl, rfl⟩ : cb = t ∧ (⟨ctr', st.cache_busters ++ [cb]⟩ : BusterState) = st' :=
      ⟨congrArg Prod.fst hpair, congrArg Prod.snd hpair⟩
    exact ⟨hspec.1, rfl, hspec.2.1, hspec.2.2⟩

theorem run_buster_calls_spec (rand : ℕ → Fin 52) (fuel : ℕ) :
    ∀ (n : ℕ) (st : BusterState) (ts : List String) (st' : BusterState),
      run_buster_calls rand fuel n st = some (ts, st') →
      st'.cache_busters = st.cache_busters ++ ts ∧
      (st.cache_busters.Nodup → (st.cache_busters ++ ts).Nodup) ∧
      ∀ t ∈ ts, t.length = 5 ∧ ∀ ch ∈ t.data, ch ∈ ascii_letters := by
  intro n
  induction n with
  | zero =>
    intro st ts st' h
    simp only [run_buster_calls] at h
    have hpair := Option.some.inj h
    obtain ⟨rfl, rfl⟩ : ([] : List String) = ts ∧ st = st' :=
      ⟨congrArg Prod.fst hpair, congrArg Prod.snd hpair⟩
    simp
  | succ n ih =>
    intro st ts st' h
    simp only [run_buster_calls] at h
    cases hg : get_unique_cache_buster rand 5 st fuel with
    | none => simp [hg] at h
    | some pr =>
      obtain ⟨t, st1⟩ := pr
      simp only [hg] at h
      cases hr : run_buster_calls rand fuel n st1 with
      | none => simp [hr] at h
      | some pr2 =>
        obtain ⟨ts2, st2⟩ := pr2
        simp only [hr] at h
        have hpair := Option.some.inj h
        obtain ⟨rfl, rfl⟩ : t :: ts2 = ts ∧ st2 = st' :=
          ⟨congrArg Prod.fst hpair, congrArg Prod.snd hpair⟩
        have hc := get_unique_cache_buster_spec rand 5 st fuel t st1 hg
        have hrec := ih st1 ts2 st2 hr
        refine ⟨?_, ?_, ?_⟩
        · rw [hrec.1, hc.2.1]
          simp
        · intro hnd
          have hnd1 : st1.cache_busters.Nodup := by
            rw [hc.2.1]
            simp [List.nodup_append, hnd, hc.1]
          have hall := hrec.2.1 hnd1
          rw [hc.2.1] at hall
          simpa using hall
        · intro x hx
          rcases List.mem_cons.mp hx with rfl | hx2
          · exact ⟨hc.2.2.1, hc.2.2.2⟩
          · exact hrec.2.2 x hx2

/-- C5: for every terminating sequence of `get_unique_cache_buster`
calls in one process run — all `CacheBuster` instances share the
class-level ledger `_cache_busters`, modelled as the threaded
`BusterState` starting empty — the returned tokens are pairwise
distinct; each is a 5-character string of ASCII letters (the default
`length=5`), was absent from the ledger when checked (re-rolled on
collision inside `get_unique_loop`), and is recorded in the ledger
before being returned, so the final ledger is exactly the token list. -/
theorem cache_buster_tokens_unique (rand : ℕ → Fin 52) (fuel n : ℕ)
    (ts : List String) (st' : BusterState)
    (h : run_buster_calls rand fuel n ⟨0, []⟩ = some (ts, st')) :
    ts.Nodup ∧ st'.cache_busters = ts ∧
      ∀ t ∈ ts, t.length = 5 ∧ ∀ ch ∈ t.data, ch ∈ ascii_letters := by
  have hs := run_buster_calls_spec rand fuel n ⟨0, []⟩ ts st' h
  refine ⟨?_, ?_, hs.2.2⟩
  · have hnd := hs.2.1 (by simp)
    simpa using hnd
  · simpa using hs.1

theorem cache_buster_tokens_unique_witness :
    (["abcde", "fghij"] : List String).Nodup ∧
    (BusterState.mk 10 ["abcde", "fghij"]).cache_busters = ["abcde", "fghij"] ∧
    ∀ t ∈ (["abcde", "fghij"] : List String),
      t.length = 5 ∧ ∀ ch ∈ t.data, ch ∈ ascii_letters :=
  cache_buster_tokens_unique demo_rand 1 2 ["abcde", "fghij"] ⟨10, ["abcde", "fghij"]⟩
    (by decide)

/-! ### C6: the Vary echo of `cache_bust_request` -/

theorem dict_get_map_overwrite (k v : String) :
    ∀ m : List (String × String), dict_mem m k = true →
      dict_get k (m.map (fun kv => if kv.1 == k then (k, v) else kv)) = some v := by
  intro m
  induction m with
  | nil => intro hm; simp [dict_mem] at hm
  | cons kv rest ih =>
    intro hm
    obtain ⟨a, b⟩ := kv
    simp only [List.map_cons]
    by_cases hk : (a == k) = true
    · rw [if_pos hk]
      simp [dict_get]
    · rw [if_neg hk]
      have hm' : dict_mem rest k = true := by
        simp only [dict_mem, List.any_cons] at hm
        rcases Bool.or_eq_true_iff.mp hm with h1 | h1
        · exact absurd h1 hk
        · exact h1
      simp only [dict_get]
      rw [if_neg hk]
      exact ih hm'

theorem dict_get_eq_none_of_not_mem (k : String) :
    ∀ m : List (String × String), dict_mem m k = false → dict_get k m = none := by
  intro m
  induction m with
  | nil => intro _; rfl
  | cons kv rest ih =>
    intro hm
    obtain ⟨a, b⟩ := kv
    simp only [dict_mem, List.any_cons, Bool.or_eq_false_iff] at hm
    simp only [dict_get]
    rw [if_neg (by rw [hm.1]; exact Bool.false_ne_true)]
    exact ih hm.2

theorem dict_get_append_of_none (k : String) (m₂ : List (String × String)) :
    ∀ m₁ : List (String × String), dict_get k m₁ = none →
      dict_get k (m₁ ++ m₂) = dict_get k m₂ := by
  intro m₁
  induction m₁ with
  | nil => intro _; rfl
  | cons kv rest ih =>
    intro hm
    obtain ⟨a, b⟩ := kv
    by_cases hk : (a == k) = true
    · simp only [dict_get] at hm
      rw [if_pos hk] at hm
      exact absurd hm (by simp)
    · simp only [dict_get] at hm
      rw [if_neg hk] at hm
      simp only [List.cons_append, dict_get]
      rw [if_neg hk]
      exact ih hm

theorem dict_get_set_self (m : List (String × String)) (k v : String) :
    dict_get k (dict_set m k v) = some v := by
  unfold dict_set
  by_cases hm : dict_mem m k = true
  · rw [if_pos hm]
    exact dict_get_map_overwrite k v m hm
  · rw [if_neg hm]
    have hm' : dict_mem m k = false := by
      cases hb : dict_mem m k
      · rfl
      · exact absurd hb hm
    rw [dict_get_append_of_none k [(k, v)] m (dict_get_eq_none_of_not_mem k m hm')]
    simp [dict_get]

theorem dict_get_map_overwrite_ne (k v k' : String) (hne : k' ≠ k) :
    ∀ m : List (String × String),
      dict_get k' (m.map (fun kv => if kv.1 == k then (k, v) else kv)) =
        dict_get k' m := by
  have hkk' : (k == k') = false := by
    cases hb : (k == k')
    · rfl
    · exact absurd (beq_iff_eq.mp hb).symm hne
  intro m
  induction m with
  | nil => rfl
  | cons kv rest ih =>
    obtain ⟨a, b⟩ := kv
    simp only [List.map_cons]
    by_cases hk : (a == k) = true
    · rw [if_pos hk]
      have ha : a = k := beq_iff_eq.mp hk
      simp only [dict_get]
      rw [if_neg (by rw [hkk']; exact Bool.false_ne_true),
        if_neg (by rw [ha, hkk']; exact Bool.false_ne_true)]
      exact ih
    · rw [if_neg hk]
      simp only [dict_get]
      by_cases ha : (a == k') = true
      · rw [if_pos ha, if_pos ha]
      · rw [if_neg ha, if_neg ha]
        exact ih

theorem dict_get_append_single_ne (k v k' : String) (hne : k' ≠ k) :
    ∀ m : List (String × String), dict_get k' (m ++ [(k, v)]) = dict_get k' m := by
  have hkk' : (k == k') = false := by
    cases hb : (k == k')
    · rfl
    · exact absurd (beq_iff_eq.mp hb).symm hne
  intro m
  induction m with
  | nil =>
    simp only [List.nil_append, dict_get]
    rw [if_neg (by rw [hkk']; exact Bool.false_ne_true)]
  | cons kv rest ih =>
    obtain ⟨a, b⟩ := kv
    simp only [List.cons_append, dict_get]
    by_cases ha : (a == k') = true
    · rw [if_pos ha, if_pos ha]
    · rw [if_neg ha, if_neg ha]
      exact ih

theorem dict_get_set_ne (m : List (String × String)) (k v k' : String) (hne : k' ≠ k) :
    dict_get k' (dict_set m k v) = dict_get k' m := by
  unfold dict_set
  by_cases hm : dict_mem m k = true
  · rw [if_pos hm]
    exact dict_get_map_overwrite_ne k v k' hne m
  · rw [if_neg hm]
    exact dict_get_append_single_ne k v k' hne m

theorem vary_foldl_preserve (site : String) (tok : ℕ → String) (h : String) :
    ∀ (entries : List String) (acc : List (String × String) × ℕ),
      h ∉ entries.map (fun e => str_lower (py_strip e)) →
      dict_get h (entries.foldl (vary_step site tok) acc).1 = dict_get h acc.1 := by
  intro entries
  induction entries with
  | nil => intro acc _; rfl
  | cons e rest ih =>
    intro acc hnot
    simp only [List.map_cons, List.mem_cons] at hnot
    push_neg at hnot
    simp only [List.foldl_cons]
    rw [ih _ hnot.2]
    unfold vary_step
    by_cases hskip :
        (TEST_HEADERS.any (fun th => str_in (str_lower (py_strip e)) (str_lower th)) ||
          (str_lower (py_strip e) == "cookie")) = true
    · rw [if_pos hskip]
    · rw [if_neg hskip]
      exact dict_get_set_ne _ _ _ _ hnot.1

theorem vary_foldl_presence (site : String) (tok : ℕ → String) (h : String)
    (hskip : (TEST_HEADERS.any (fun th => str_in h (str_lower th)) || (h == "cookie")) = false) :
    ∀ (entries : List String) (acc : List (String × String) × ℕ),
      h ∈ entries.map (fun e => str_lower (py_strip e)) →
      ∃ c old, dict_get h (entries.foldl (vary_step site tok) acc).1 =
        some (cache_bust_header site h old (tok c)) := by
  intro entries
  induction entries with
  | nil => intro acc hmem; simp at hmem
  | cons e rest ih =>
    intro acc hmem
    simp only [List.foldl_cons]
    by_cases hrest : h ∈ rest.map (fun e => str_lower (py_strip e))
    · exact ih _ hrest
    · have heq : str_lower (py_strip e) = h := by
        simp only [List.map_cons, List.mem_cons] at hmem
        rcases hmem with h1 | h1
        · exact h1.symm
        · exact absurd h1 hrest
      rw [vary_foldl_preserve site tok h rest _ hrest]
      unfold vary_step
      rw [heq]
      rw [if_neg (by rw [hskip]; exact Bool.false_ne_true)]
      exact ⟨acc.2, (dict_get h acc.1).getD "", dict_get_set_self _ _ _⟩

/-- C6 (amended): every header name listed in the comma-separated `vary`
value whose stripped, lowercased form is neither `'cookie'` nor a
substring of some `TEST_HEADERS` name (compared lowercase — the
source's skip test `any(header in h.lower() for h in TEST_HEADERS)` is
a substring test, not a membership test) ends up present in the headers
returned by `cache_bust_request`, bound to a value freshly generated by
`cache_bust_header` from a token of the supply. Names that are such
substrings are skipped by the echo pass even when they are not
themselves `TEST_HEADERS` entries (see the counterexample). -/
theorem vary_echo_presence (tok : ℕ → String) (ctr : ℕ) (url : Url)
    (headers cookies : List (String × String)) (vary : String) (path : Bool) (h : String)
    (hmem : h ∈ (py_split_comma vary).map (fun e => str_lower (py_strip e)))
    (hsub : TEST_HEADERS.any (fun th => str_in h (str_lower th)) = false)
    (hck : (h == "cookie") = false) :
    ∃ c old,
      dict_get h (cache_bust_request tok ctr url headers cookies vary path).headers =
        some (cache_bust_header url.netloc h old (tok c)) := by
  have hskip : (TEST_HEADERS.any (fun th => str_in h (str_lower th)) || (h == "cookie")) =
      false := by
    rw [hsub, hck]
    rfl
  exact vary_foldl_presence url.netloc tok h hskip (py_split_comma vary) _ hmem

theorem vary_echo_presence_witness :
    ∃ c old,
      dict_get "x-custom"
          (cache_bust_request tok_const 0 url_demo [] [] "x-custom" false).headers =
        some (cache_bust_header url_demo.netloc "x-custom" old (tok_const c)) :=
  vary_echo_presence tok_const 0 url_demo [] [] "x-custom" false "x-custom"
    (by decide) (by decide) (by decide)

/-- C6 (counterexample): with `Vary: host` the name `host` is listed,
is not `'cookie'`, and is not a `TEST_HEADERS` entry — yet after
`cache_bust_request` no header named `host` (in any casing) is present:
the echo pass skipped it because `'host'` is a substring of
`'x-forwarded-host'`, and the `TEST_HEADERS` pass only sets the seven
fixed names. This refutes the claim that every non-cookie Vary-listed
name is present with a fresh value. -/
theorem vary_echo_counterexample :
    "host" ∈ (py_split_comma "host").map (fun e => str_lower (py_strip e)) ∧
    ("host" == "cookie") = false ∧
    ("host" ∈ TEST_HEADERS.map str_lower) = False ∧
    (cache_bust_request tok_const 0 url_demo [] [] "host" false).headers.all
      (fun kv => !(str_lower kv.1 == "host")) = true := by
  refine ⟨by decide, by decide, by decide, by decide⟩


end HWCD
